import Mathlib

/-!
Shallow embedding of the PixelForge Nexus access-control core
(backend controllers, middleware and Mongoose models) and proofs of the
spec's testable properties against it.

Conventions of the embedding:
* Mongo ObjectIds are `String`s; `null`-able reference fields are `Option String`.
* JS `Date` values are `Nat` milliseconds since the epoch; JWT `iat`
  timestamps are `Nat` seconds, matching `Math.floor(getTime() / 1000)`.
* bcryptjs.compare is modelled as equality of the presented secret with the
  stored credential (the hash is treated as the identity function).
* Controllers are modelled as pure functions from the request-local data they
  read (the resolved user record, the loaded resource, the body fields) to an
  `Except`-style outcome mirroring the HTTP branch taken.
-/

namespace PixelForge

/-- The role enum of the User schema: `['admin', 'project-lead', 'developer']`. -/
inductive Role where
  | admin
  | projectLead
  | developer
deriving DecidableEq, Repr

/-- String form of a role as stored in Mongo and sent in request bodies. -/
def Role.toString : Role → String
  | Role.admin => "admin"
  | Role.projectLead => "project-lead"
  | Role.developer => "developer"

/-- Parse of the `['admin', 'project-lead', 'developer'].includes(role)` check:
`some` exactly when the string is in the enum. -/
def roleFromString (s : String) : Option Role :=
  if s = "admin" then some Role.admin
  else if s = "project-lead" then some Role.projectLead
  else if s = "developer" then some Role.developer
  else none

/-- Project status enum: `['active', 'completed', 'on-hold', 'cancelled']`. -/
inductive ProjectStatus where
  | active
  | completed
  | onHold
  | cancelled
deriving DecidableEq, Repr

/-- The `req.user` context attached by the `authenticate` middleware:
`{ id: payload.sub, role: payload.role, email: user.email }`.
Where only `id` and `role` are consulted we keep those two fields. -/
structure AuthUser where
  id : String
  role : Role
deriving DecidableEq, Repr

/-- The fields of the Project model consulted by the access-control code.
`projectLead` and `createdBy` may be unset (`getId` maps them to `null`). -/
structure Project where
  name : String
  status : ProjectStatus
  createdBy : Option String
  projectLead : Option String
  assignedDevelopers : List String
deriving DecidableEq, Repr

/-- `hasProjectAccess(user, project)` from projectController.js: admin always;
project-lead iff they lead or created the project; developer iff assigned. -/
def hasProjectAccess (user : AuthUser) (p : Project) : Bool :=
  if user.role = Role.admin then
    true
  else if user.role = Role.projectLead ∧
      (p.projectLead = some user.id ∨ p.createdBy = some user.id) then
    true
  else if user.role = Role.developer ∧ user.id ∈ p.assignedDevelopers then
    true
  else
    false

/-- `canModifyProject(user, project)` from projectController.js: admin always;
project-lead iff they lead or created the project; developers never. -/
def canModifyProject (user : AuthUser) (p : Project) : Bool :=
  if user.role = Role.admin then
    true
  else if user.role = Role.projectLead ∧
      (p.projectLead = some user.id ∨ p.createdBy = some user.id) then
    true
  else
    false

/-- The Mongo filter built by `listProjects`: developers are restricted to
`{ assignedDevelopers: req.user.id }`, project leads to
`{ $or: [{projectLead}, {createdBy}] }`, admins get the empty filter `{}`
(which matches every project). Modelled as the predicate the filter denotes. -/
def listProjectsFilter (user : AuthUser) : Project → Bool :=
  if user.role = Role.developer then
    fun p => decide (user.id ∈ p.assignedDevelopers)
  else if user.role = Role.projectLead then
    fun p => decide (p.projectLead = some user.id ∨ p.createdBy = some user.id)
  else
    fun _ => true

/-- One entry of a document's `accessibleBy` list: `{ userId, role }`. -/
structure AccessEntry where
  userId : String
  role : Role
deriving DecidableEq, Repr

/-- One entry of a document's audit `accessLog`. -/
structure AccessLogEntry where
  userId : String
  accessedAt : Nat
  action : String
deriving DecidableEq, Repr

/-- The fields of the Document model consulted by the document controller. -/
structure Document where
  fileName : String
  originalFileName : String
  fileSize : Nat
  mimeType : String
  project : String
  uploadedBy : String
  accessibleBy : List AccessEntry
  classification : String
  checksum : String
  accessLog : List AccessLogEntry
deriving DecidableEq, Repr

/-- `canAccessDocument(user, document)` from documentController.js:
admin always; otherwise the user id must appear in `accessibleBy`. -/
def canAccessDocument (user : AuthUser) (d : Document) : Bool :=
  if user.role = Role.admin then
    true
  else
    d.accessibleBy.any (fun a => a.userId = user.id)

/-- `canAccessProject(user, project)` from documentController.js (same rule as
`hasProjectAccess` in projectController.js, duplicated in the source). -/
def canAccessProject (user : AuthUser) (p : Project) : Bool :=
  if user.role = Role.admin then
    true
  else if user.role = Role.projectLead ∧
      (p.projectLead = some user.id ∨ p.createdBy = some user.id) then
    true
  else if user.role = Role.developer ∧ user.id ∈ p.assignedDevelopers then
    true
  else
    false

/-- `canUploadToProject(user, project)` from documentController.js:
only admin, or a project-lead who leads or created the project. -/
def canUploadToProject (user : AuthUser) (p : Project) : Bool :=
  if user.role = Role.admin then
    true
  else if user.role = Role.projectLead ∧
      (p.projectLead = some user.id ∨ p.createdBy = some user.id) then
    true
  else
    false

/-- The fields of the User model consulted by the authentication and
user-management code. `password` holds the stored credential (the bcrypt hash
is modelled as the identity function), `passwordChangedAt`, `lastLogin` and
`lockUntil` are millisecond timestamps. -/
structure UserRec where
  id : String
  username : String
  email : String
  password : String
  role : Role
  fullName : String
  isActive : Bool
  lastLogin : Option Nat
  mfaEnabled : Bool
  passwordChangedAt : Option Nat
  loginAttempts : Nat
  lockUntil : Option Nat
deriving DecidableEq, Repr

/-- `bcryptjs.compare(candidate, hash)`: the work-factor hash is external, so
verification is modelled as equality of the candidate with the stored
credential. -/
def verifyPassword (candidate stored : String) : Bool :=
  candidate = stored

/-- The pre-save hook of the User schema when `password` was modified:
stores the (hashed) new password and bumps `passwordChangedAt = new Date()`. -/
def savePassword (nowMs : Nat) (u : UserRec) (newPassword : String) : UserRec :=
  { u with password := newPassword, passwordChangedAt := some nowMs }

/-- Lock window from `incLoginAttempts`: `2 * 60 * 60 * 1000` ms (2 hours). -/
def lockTime : Nat := 2 * 60 * 60 * 1000

/-- Lock threshold from `incLoginAttempts`: `maxAttempts = 5`. -/
def maxAttempts : Nat := 5

/-- `userSchema.methods.isLocked()`: `lockUntil && lockUntil > new Date()`. -/
def isLocked (nowMs : Nat) (u : UserRec) : Bool :=
  match u.lockUntil with
  | some t => decide (nowMs < t)
  | none => false

/-- `userSchema.methods.incLoginAttempts()`: if an expired lock is present,
restart the window at 1 attempt and clear the lock; otherwise increment the
counter, setting `lockUntil = now + lockTime` when `loginAttempts + 1`
reaches `maxAttempts`. -/
def incLoginAttempts (nowMs : Nat) (u : UserRec) : UserRec :=
  match u.lockUntil with
  | some t =>
    if t < nowMs then
      { u with loginAttempts := 1, lockUntil := none }
    else if maxAttempts ≤ u.loginAttempts + 1 then
      { u with loginAttempts := u.loginAttempts + 1,
               lockUntil := some (nowMs + lockTime) }
    else
      { u with loginAttempts := u.loginAttempts + 1 }
  | none =>
    if maxAttempts ≤ u.loginAttempts + 1 then
      { u with loginAttempts := u.loginAttempts + 1,
               lockUntil := some (nowMs + lockTime) }
    else
      { u with loginAttempts := u.loginAttempts + 1 }

/-- `userSchema.methods.resetLoginAttempts()`: zero the counter, clear the
lock, record `lastLogin`. -/
def resetLoginAttempts (nowMs : Nat) (u : UserRec) : UserRec :=
  { u with loginAttempts := 0, lastLogin := some nowMs, lockUntil := none }

/-- Outcome branches of the `login` controller. -/
inductive LoginResult where
  | invalidCredentials
  | locked
  | inactive
  | mfaRequired
  | success
deriving DecidableEq, Repr

/-- The `login` controller of authController.js, from the looked-up user
(`none` when no user matches the username): lock check first, then active
check, then password verification (failure increments the attempt counter),
then the MFA branch, and finally success resets the counter. Returns the
branch taken and the user record as left in the store. -/
def login (nowMs : Nat) (found : Option UserRec) (password : String) :
    LoginResult × Option UserRec :=
  match found with
  | none => (LoginResult.invalidCredentials, none)
  | some u =>
    if isLocked nowMs u then
      (LoginResult.locked, some u)
    else if u.isActive = false then
      (LoginResult.inactive, some u)
    else if verifyPassword password u.password = false then
      (LoginResult.invalidCredentials, some (incLoginAttempts nowMs u))
    else if u.mfaEnabled then
      (LoginResult.mfaRequired, some u)
    else
      (LoginResult.success, some (resetLoginAttempts nowMs u))

/-- Claims of an access token as produced by `generateAccessToken(userId, role)`
and returned by `verifyAccessToken`: subject id, role, and the issued-at
timestamp `iat` in seconds that jwt.sign stamps on the payload. -/
structure AccessPayload where
  sub : String
  role : Role
  iat : Nat
deriving DecidableEq, Repr

/-- Claims of a refresh token as produced by `generateRefreshToken(userId)` and
returned by `verifyRefreshToken`: subject id and issued-at (seconds). The
refresh payload carries no role claim. -/
structure RefreshPayload where
  sub : String
  iat : Nat
deriving DecidableEq, Repr

/-- `userSchema.methods.passwordChangedAfter(jwtTimestamp)`:
true when `passwordChangedAt` exists and `jwtTimestamp` predates
`Math.floor(passwordChangedAt.getTime() / 1000)`. -/
def passwordChangedAfter (u : UserRec) (jwtTimestamp : Nat) : Bool :=
  match u.passwordChangedAt with
  | some t => decide (jwtTimestamp < t / 1000)
  | none => false

/-- Error branches shared by the authentication middleware and the
refresh-token controller. -/
inductive AuthFail where
  | noToken
  | badToken
  | userNotFoundOrInactive
  | staleCredential
deriving DecidableEq, Repr

/-- The `req.user` context built by `authenticate`:
`{ id: payload.sub, role: payload.role, email: user.email }`. Note that `role`
comes from the token payload, not from the stored user record. -/
structure AuthContext where
  id : String
  role : Role
  email : String
deriving DecidableEq, Repr

/-- Subject resolution in the `authenticate` middleware, after
`verifyAccessToken` has already validated signature and expiry: load the user
by `payload.sub` (`found`), reject a missing or inactive user, reject a token
issued before the last credential change, else attach the context. -/
def authenticate (payload : AccessPayload) (found : Option UserRec) :
    Except AuthFail AuthContext :=
  match found with
  | none => Except.error AuthFail.userNotFoundOrInactive
  | some u =>
    if u.isActive = false then
      Except.error AuthFail.userNotFoundOrInactive
    else if passwordChangedAfter u payload.iat then
      Except.error AuthFail.staleCredential
    else
      Except.ok { id := payload.sub, role := payload.role, email := u.email }

/-- The `refreshToken` controller of authController.js, after
`verifyRefreshToken` has validated signature and expiry: load the user by
`payload.sub` (`found`); reject only a missing or inactive user; then issue a
fresh access token `generateAccessToken(user._id, user.role)` stamped at
`nowIat`. No credential-change check is performed on this path. -/
def refreshTokenStep (nowIat : Nat) (payload : RefreshPayload)
    (found : Option UserRec) : Except AuthFail AccessPayload :=
  match found with
  | none => Except.error AuthFail.userNotFoundOrInactive
  | some u =>
    if u.isActive = false then
      Except.error AuthFail.userNotFoundOrInactive
    else
      Except.ok { sub := u.id, role := u.role, iat := nowIat }

/-- Error branches of the `changePassword` controller. -/
inductive ChangePasswordFail where
  | mismatch
  | notFound
  | wrongOldPassword
deriving DecidableEq, Repr

/-- The `changePassword` controller of authController.js: confirmation must
match, the user must exist, the old password must verify; then the new
password is saved, which bumps `passwordChangedAt` via the pre-save hook. -/
def changePassword (nowMs : Nat) (found : Option UserRec)
    (oldPassword newPassword confirmPassword : String) :
    Except ChangePasswordFail UserRec :=
  if newPassword ≠ confirmPassword then
    Except.error ChangePasswordFail.mismatch
  else
    match found with
    | none => Except.error ChangePasswordFail.notFound
    | some u =>
      if verifyPassword oldPassword u.password = false then
        Except.error ChangePasswordFail.wrongOldPassword
      else
        Except.ok (savePassword nowMs u newPassword)

/-- Verdict of the route-level role gate (`authorize(...allowedRoles)`). -/
inductive GateResult where
  | unauthenticated
  | forbidden
  | allowed
deriving DecidableEq, Repr

/-- The `authorize` middleware factory: 401 when `req.user` is absent, 403
when the attached role is not in the allowed list, else pass. -/
def roleGate (allowedRoles : List Role) (ctx : Option AuthContext) : GateResult :=
  match ctx with
  | none => GateResult.unauthenticated
  | some c =>
    if allowedRoles.contains c.role then GateResult.allowed
    else GateResult.forbidden

/-- The route-level pipeline on a protected route: `authenticate` resolves the
subject, then `authorize` checks the attached role. -/
def protectedRoleGate (allowedRoles : List Role) (payload : AccessPayload)
    (found : Option UserRec) : GateResult :=
  roleGate allowedRoles (authenticate payload found).toOption

/-- Body fields read by the `updateUser` controller
(`{ fullName, email, role, isActive }`, plus the rejected `password`). -/
structure UpdateUserBody where
  fullName : Option String
  email : Option String
  role : Option String
  isActive : Option Bool
  password : Option String
deriving DecidableEq, Repr

/-- The safe-update object built by `updateUser`: each field is applied only
when truthy (non-empty string), and `role` only when it is in the enum;
`isActive` is applied whenever it is present. -/
def applyUserUpdate (body : UpdateUserBody) (u : UserRec) : UserRec :=
  let u1 := match body.fullName with
    | some f => if f = "" then u else { u with fullName := f }
    | none => u
  let u2 := match body.email with
    | some e => if e = "" then u1 else { u1 with email := e }
    | none => u1
  let u3 := match body.role with
    | some r =>
      match roleFromString r with
      | some ro => { u2 with role := ro }
      | none => u2
    | none => u2
  match body.isActive with
  | some b => { u3 with isActive := b }
  | none => u3

/-- Error branches of the user-management controllers. -/
inductive UserMgmtFail where
  | passwordNotAllowed
  | notFound
  | selfDelete
  | selfDeactivate
deriving DecidableEq, Repr

/-- `User.findById` over the user store. -/
def findUser (store : List UserRec) (uid : String) : Option UserRec :=
  store.find? (fun u => u.id == uid)

/-- The `updateUser` controller of userController.js (route-gated to admins):
reject a password in the body, 404 a missing target, else apply the safe
update object. The source performs no self-targeting check on this path. -/
def updateUser (reqUserId targetId : String) (body : UpdateUserBody)
    (store : List UserRec) : Except UserMgmtFail (List UserRec) :=
  if body.password.isSome then
    Except.error UserMgmtFail.passwordNotAllowed
  else
    match findUser store targetId with
    | none => Except.error UserMgmtFail.notFound
    | some _ =>
      Except.ok (store.map (fun u => if u.id == targetId then applyUserUpdate body u else u))

/-- The `deleteUser` controller of userController.js: reject when the admin
targets their own account (`req.user.id === id`), 404 a missing target, else
remove the record. -/
def deleteUser (reqUserId targetId : String) (store : List UserRec) :
    Except UserMgmtFail (List UserRec) :=
  if reqUserId = targetId then
    Except.error UserMgmtFail.selfDelete
  else
    match findUser store targetId with
    | none => Except.error UserMgmtFail.notFound
    | some _ => Except.ok (store.filter (fun u => !(u.id == targetId)))

/-- The `deactivateUser` controller of userController.js: reject when the admin
targets their own account, 404 a missing target, else set `isActive: false`. -/
def deactivateUser (reqUserId targetId : String) (store : List UserRec) :
    Except UserMgmtFail (List UserRec) :=
  if reqUserId = targetId then
    Except.error UserMgmtFail.selfDeactivate
  else
    match findUser store targetId with
    | none => Except.error UserMgmtFail.notFound
    | some _ =>
      Except.ok (store.map (fun u => if u.id == targetId then { u with isActive := false } else u))

/-- A concrete active developer account with a fresh lockout state, used to
instantiate the universally quantified theorems. -/
def demoUser : UserRec :=
  { id := "u1"
    username := "dev@example.com"
    email := "dev@example.com"
    password := "Dev123!@#"
    role := Role.developer
    fullName := "Developer"
    isActive := true
    lastLogin := none
    mfaEnabled := false
    passwordChangedAt := none
    loginAttempts := 0
    lockUntil := none }

end PixelForge

namespace PixelForge

/-- C4: for every project p and developer d, the project-read decision
`hasProjectAccess` is true iff d is in p.assignedDevelopers, and the
project-modify decision `canModifyProject` is false for d on every project. -/
theorem developer_containment (id : String) (p : Project) :
    (hasProjectAccess ⟨id, Role.developer⟩ p = true ↔ id ∈ p.assignedDevelopers)
    ∧ canModifyProject ⟨id, Role.developer⟩ p = false := by
  constructor
  · simp [hasProjectAccess]
  · simp [canModifyProject]

/-- C5: for every project and document, an admin subject gets an allow from the
read decisions (`hasProjectAccess`, `canAccessDocument`, and the duplicate
`canAccessProject`), and the admin project-listing filter is the no-op filter
that accepts every project. -/
theorem admin_supremacy (id : String) (p : Project) (d : Document) :
    hasProjectAccess ⟨id, Role.admin⟩ p = true
    ∧ canAccessDocument ⟨id, Role.admin⟩ d = true
    ∧ canAccessProject ⟨id, Role.admin⟩ p = true
    ∧ (∀ q : Project, listProjectsFilter ⟨id, Role.admin⟩ q = true) := by
  refine ⟨?_, ?_, ?_, ?_⟩
  · simp [hasProjectAccess]
  · simp [canAccessDocument]
  · simp [canAccessProject]
  · intro q
    simp [listProjectsFilter]

end PixelForge

namespace PixelForge

/-- C3: starting from zero failed attempts and no lock, five consecutive
failed logins each return invalid-credentials while stepping the attempt
counter; the fifth sets `lockUntil = now + 2h`; the sixth attempt fails with
the lock signal even though the presented secret is correct (lock check
precedes secret verification); and once `lockUntil` has elapsed a correct
attempt succeeds, resets the counter to 0 and clears the lock. -/
theorem lockout_threshold (u0 : UserRec) (nowMs t6 t7 : Nat) (wrong correct : String)
    (h0 : u0.loginAttempts = 0) (hl : u0.lockUntil = none)
    (ha : u0.isActive = true) (hm : u0.mfaEnabled = false)
    (hw : verifyPassword wrong u0.password = false)
    (hc : verifyPassword correct u0.password = true)
    (h6 : t6 < nowMs + lockTime)
    (h7 : nowMs + lockTime ≤ t7) :
    (∀ k < 5, login nowMs (some ((incLoginAttempts nowMs)^[k] u0)) wrong
        = (LoginResult.invalidCredentials, some ((incLoginAttempts nowMs)^[k + 1] u0)))
    ∧ ((incLoginAttempts nowMs)^[5] u0).lockUntil = some (nowMs + lockTime)
    ∧ ((incLoginAttempts nowMs)^[5] u0).loginAttempts = 5
    ∧ login t6 (some ((incLoginAttempts nowMs)^[5] u0)) correct
        = (LoginResult.locked, some ((incLoginAttempts nowMs)^[5] u0))
    ∧ login t7 (some ((incLoginAttempts nowMs)^[5] u0)) correct
        = (LoginResult.success,
           some (resetLoginAttempts t7 ((incLoginAttempts nowMs)^[5] u0)))
    ∧ (resetLoginAttempts t7 ((incLoginAttempts nowMs)^[5] u0)).loginAttempts = 0
    ∧ (resetLoginAttempts t7 ((incLoginAttempts nowMs)^[5] u0)).lockUntil = none := by
  have hstep : ∀ v : UserRec, v.lockUntil = none → v.loginAttempts + 1 < maxAttempts →
      incLoginAttempts nowMs v = { v with loginAttempts := v.loginAttempts + 1 } := by
    intro v hv hlt
    simp only [incLoginAttempts, hv]
    rw [if_neg (by omega)]
  have i1 : (incLoginAttempts nowMs)^[1] u0 = { u0 with loginAttempts := 1 } := by
    rw [Function.iterate_one, hstep u0 hl (by rw [h0]; decide)]
    simp [h0]
  have i2 : (incLoginAttempts nowMs)^[2] u0 = { u0 with loginAttempts := 2 } := by
    rw [show (2 : Nat) = 1 + 1 from rfl, Function.iterate_succ_apply', i1,
      hstep { u0 with loginAttempts := 1 } (by simp [hl]) (by simp [maxAttempts])]
  have i3 : (incLoginAttempts nowMs)^[3] u0 = { u0 with loginAttempts := 3 } := by
    rw [show (3 : Nat) = 2 + 1 from rfl, Function.iterate_succ_apply', i2,
      hstep { u0 with loginAttempts := 2 } (by simp [hl]) (by simp [maxAttempts])]
  have i4 : (incLoginAttempts nowMs)^[4] u0 = { u0 with loginAttempts := 4 } := by
    rw [show (4 : Nat) = 3 + 1 from rfl, Function.iterate_succ_apply', i3,
      hstep { u0 with loginAttempts := 3 } (by simp [hl]) (by simp [maxAttempts])]
  have i5 : (incLoginAttempts nowMs)^[5] u0
      = { u0 with loginAttempts := 5, lockUntil := some (nowMs + lockTime) } := by
    rw [show (5 : Nat) = 4 + 1 from rfl, Function.iterate_succ_apply', i4]
    simp only [incLoginAttempts, hl]
    rw [if_pos (by decide)]
  have loginStep : ∀ v : UserRec, v.lockUntil = none → v.isActive = true →
      verifyPassword wrong v.password = false →
      login nowMs (some v) wrong
        = (LoginResult.invalidCredentials, some (incLoginAttempts nowMs v)) := by
    intro v h1 h2 h3
    simp [login, isLocked, h1, h2, h3]
  refine ⟨?_, ?_, ?_, ?_, ?_, ?_, ?_⟩
  · intro k hk
    interval_cases k
    · rw [Function.iterate_zero_apply, loginStep u0 hl ha hw, Function.iterate_one]
    · rw [i1, show (1 : Nat) + 1 = 2 from rfl, i2,
        loginStep { u0 with loginAttempts := 1 } (by simp [hl]) (by simp [ha]) (by simp [hw]),
        hstep { u0 with loginAttempts := 1 } (by simp [hl]) (by simp [maxAttempts])]
    · rw [i2, show (2 : Nat) + 1 = 3 from rfl, i3,
        loginStep { u0 with loginAttempts := 2 } (by simp [hl]) (by simp [ha]) (by simp [hw]),
        hstep { u0 with loginAttempts := 2 } (by simp [hl]) (by simp [maxAttempts])]
    · rw [i3, show (3 : Nat) + 1 = 4 from rfl, i4,
        loginStep { u0 with loginAttempts := 3 } (by simp [hl]) (by simp [ha]) (by simp [hw]),
        hstep { u0 with loginAttempts := 3 } (by simp [hl]) (by simp [maxAttempts])]
    · rw [i4, show (4 : Nat) + 1 = 5 from rfl, i5,
        loginStep { u0 with loginAttempts := 4 } (by simp [hl]) (by simp [ha]) (by simp [hw])]
      congr 1
      simp only [incLoginAttempts, hl]
      rw [if_pos (by decide)]
  · rw [i5]
  · rw [i5]
  · rw [i5]
    simp [login, isLocked, h6]
  · rw [i5]
    simp only [login, isLocked]
    rw [if_neg (by simp; omega)]
    simp [ha, hc, hm]
  · rfl
  · rfl

/-- Witness for `lockout_threshold` at a concrete account and timeline. -/
theorem lockout_threshold_witness :
    ((incLoginAttempts 1000)^[5] demoUser).lockUntil = some (1000 + lockTime)
    ∧ login 5000 (some ((incLoginAttempts 1000)^[5] demoUser)) "Dev123!@#"
        = (LoginResult.locked, some ((incLoginAttempts 1000)^[5] demoUser))
    ∧ login (1000 + lockTime) (some ((incLoginAttempts 1000)^[5] demoUser)) "Dev123!@#"
        = (LoginResult.success,
           some (resetLoginAttempts (1000 + lockTime) ((incLoginAttempts 1000)^[5] demoUser))) := by
  have h := lockout_threshold demoUser 1000 5000 (1000 + lockTime) "nope" "Dev123!@#"
    rfl rfl rfl rfl (by decide) (by decide) (by decide) (by decide)
  exact ⟨h.2.1, h.2.2.2.1, h.2.2.2.2.1⟩

end PixelForge

namespace PixelForge

/-- A concrete admin account used to instantiate the user-management and
token theorems. -/
def demoAdmin : UserRec :=
  { id := "a1"
    username := "admin@example.com"
    email := "admin@example.com"
    password := "Admin123!@#"
    role := Role.admin
    fullName := "Admin User"
    isActive := true
    lastLogin := none
    mfaEnabled := false
    passwordChangedAt := none
    loginAttempts := 0
    lockUntil := none }

/-- C1 (failing input): self-targeting delete and deactivate are rejected with
the record untouched, but `updateUser` lets an admin change their own role:
the request `PUT /users/a1` with body `{ role: "developer" }` issued by admin
`a1` succeeds and rewrites the admin's own role. -/
theorem admin_self_role_change_not_blocked :
    deleteUser demoAdmin.id demoAdmin.id [demoAdmin]
        = Except.error UserMgmtFail.selfDelete
    ∧ deactivateUser demoAdmin.id demoAdmin.id [demoAdmin]
        = Except.error UserMgmtFail.selfDeactivate
    ∧ updateUser demoAdmin.id demoAdmin.id
        { fullName := none, email := none, role := some "developer",
          isActive := none, password := none } [demoAdmin]
        = Except.ok [{ demoAdmin with role := Role.developer }]
    ∧ updateUser demoAdmin.id demoAdmin.id
        { fullName := none, email := none, role := none,
          isActive := some false, password := none } [demoAdmin]
        = Except.ok [{ demoAdmin with isActive := false }] := by
  refine ⟨rfl, rfl, rfl, rfl⟩

/-- C2 (counterexample to the refresh clause): after the subject's password
change at t = 3000000 ms, a refresh token issued at iat = 100 s (before the
change, since 100 < 3000000 / 1000) still yields a fresh access token. -/
theorem stale_refresh_token_still_accepted :
    refreshTokenStep 5000 { sub := "u1", iat := 100 }
        (some (savePassword 3000000 demoUser "NewPass1!"))
      = Except.ok { sub := "u1", role := Role.developer, iat := 5000 } := by
  rfl

/-- C2 (amended): a password change bumps `passwordChangedAt`, so any access
token issued earlier fails subject resolution with the stale-credential error;
but the refresh-token path checks only existence and active status, so a
pre-change refresh token still yields a new access token. -/
theorem stale_credential_invalidation (u : UserRec) (payload : AccessPayload)
    (rp : RefreshPayload) (nowMs nowIat : Nat) (oldPassword newPassword : String)
    (ha : u.isActive = true)
    (hold : verifyPassword oldPassword u.password = true)
    (hiat : payload.iat < nowMs / 1000) :
    changePassword nowMs (some u) oldPassword newPassword newPassword
        = Except.ok (savePassword nowMs u newPassword)
    ∧ authenticate payload (some (savePassword nowMs u newPassword))
        = Except.error AuthFail.staleCredential
    ∧ refreshTokenStep nowIat rp (some (savePassword nowMs u newPassword))
        = Except.ok { sub := u.id, role := u.role, iat := nowIat } := by
  refine ⟨?_, ?_, ?_⟩
  · simp [changePassword, hold]
  · simp [authenticate, savePassword, ha, passwordChangedAfter, hiat]
  · simp [refreshTokenStep, savePassword, ha]

/-- Witness for `stale_credential_invalidation` at a concrete subject. -/
theorem stale_credential_invalidation_witness :
    changePassword 3000000 (some demoUser) "Dev123!@#" "NewPass1!" "NewPass1!"
        = Except.ok (savePassword 3000000 demoUser "NewPass1!")
    ∧ authenticate { sub := "u1", role := Role.developer, iat := 100 }
        (some (savePassword 3000000 demoUser "NewPass1!"))
        = Except.error AuthFail.staleCredential
    ∧ refreshTokenStep 5000 { sub := "u1", iat := 100 }
        (some (savePassword 3000000 demoUser "NewPass1!"))
        = Except.ok { sub := "u1", role := Role.developer, iat := 5000 } := by
  have h := stale_credential_invalidation demoUser
    { sub := "u1", role := Role.developer, iat := 100 } { sub := "u1", iat := 100 }
    3000000 5000 "Dev123!@#" "NewPass1!" rfl (by decide) (by decide)
  exact h

/-- C10: the route-level role gate reads the role claim embedded in the access
token, not the subject's stored role: two runs that differ only in the stored
role field produce identical gate verdicts, and whenever subject resolution
succeeds the verdict is exactly membership of the token's role claim in the
allowed list. -/
theorem role_gate_uses_token_role (allowedRoles : List Role)
    (payload : AccessPayload) (u : UserRec) (r1 r2 : Role) :
    protectedRoleGate allowedRoles payload (some { u with role := r1 })
        = protectedRoleGate allowedRoles payload (some { u with role := r2 })
    ∧ (u.isActive = true → passwordChangedAfter u payload.iat = false →
        protectedRoleGate allowedRoles payload (some u)
          = if allowedRoles.contains payload.role then GateResult.allowed
            else GateResult.forbidden) := by
  constructor
  · rfl
  · intro ha hpc
    simp [protectedRoleGate, authenticate, ha, hpc, roleGate, Except.toOption]

/-- Witness for `role_gate_uses_token_role`: a stored-role change from
developer to admin leaves the verdict of an admin-only gate unchanged. -/
theorem role_gate_uses_token_role_witness :
    protectedRoleGate [Role.admin] { sub := "u1", role := Role.developer, iat := 100 }
        (some { demoUser with role := Role.developer })
      = protectedRoleGate [Role.admin] { sub := "u1", role := Role.developer, iat := 100 }
        (some { demoUser with role := Role.admin })
    ∧ protectedRoleGate [Role.admin] { sub := "u1", role := Role.developer, iat := 100 }
        (some demoUser)
      = if List.contains [Role.admin] Role.developer then GateResult.allowed
        else GateResult.forbidden := by
  have h := role_gate_uses_token_role [Role.admin]
    { sub := "u1", role := Role.developer, iat := 100 } demoUser
    Role.developer Role.admin
  exact ⟨h.1, h.2 rfl rfl⟩

end PixelForge

namespace PixelForge

/-- Message type enum:
`['message', 'completion-request', 'completion-approved', 'completion-rejected']`. -/
inductive MsgType where
  | message
  | completionRequest
  | completionApproved
  | completionRejected
deriving DecidableEq, Repr

/-- The fields of the Message model consulted by the message controller. -/
structure Message where
  id : String
  project : String
  sender : String
  content : String
  type : MsgType
  reviewedBy : Option String
  reviewedAt : Option Nat
  reviewResponse : String
  isRead : Bool
deriving DecidableEq, Repr

/-- JS `String.prototype.trim()`: strip leading and trailing whitespace.
(Lean's own `String.trim` is defined by well-founded recursion and does not
reduce definitionally, so the embedding uses this executable equivalent.) -/
def jsTrim (s : String) : String :=
  String.mk (((s.toList.dropWhile Char.isWhitespace).reverse.dropWhile
    Char.isWhitespace).reverse)

/-- The pending-request query of `sendMessage`:
`Message.findOne({ project, type: 'completion-request', reviewedBy: null })`
has a hit. -/
def pendingCompletionRequest (msgs : List Message) (projectId : String) : Bool :=
  msgs.any (fun m =>
    decide (m.project = projectId ∧ m.type = MsgType.completionRequest ∧ m.reviewedBy = none))

/-- The message record constructed and saved by `sendMessage`. -/
def mkMessage (newId projectId senderId content : String) (type : MsgType) : Message :=
  { id := newId
    project := projectId
    sender := senderId
    content := jsTrim content
    type := type
    reviewedBy := none
    reviewedAt := none
    reviewResponse := ""
    isRead := false }

/-- Error branches of the `sendMessage` controller. -/
inductive SendMessageFail where
  | emptyContent
  | projectNotFound
  | noProjectAccess
  | notDeveloper
  | pendingRequestExists
deriving DecidableEq, Repr

/-- The `sendMessage` controller of messageController.js: non-empty content,
project must exist, sender needs project access (the controller's local
`hasProjectAccess` duplicates the one in projectController.js); a
`completion-request` additionally requires the developer role and no pending
unreviewed request for the project; on success the new message is appended. -/
def sendMessage (user : AuthUser) (found : Option Project) (projectId : String)
    (content : String) (type : MsgType) (msgs : List Message) (newId : String) :
    Except SendMessageFail (List Message) :=
  if jsTrim content = "" then
    Except.error SendMessageFail.emptyContent
  else
    match found with
    | none => Except.error SendMessageFail.projectNotFound
    | some p =>
      if hasProjectAccess user p = false then
        Except.error SendMessageFail.noProjectAccess
      else if type = MsgType.completionRequest then
        if user.role ≠ Role.developer then
          Except.error SendMessageFail.notDeveloper
        else if pendingCompletionRequest msgs projectId then
          Except.error SendMessageFail.pendingRequestExists
        else
          Except.ok (msgs ++ [mkMessage newId projectId user.id content type])
      else
        Except.ok (msgs ++ [mkMessage newId projectId user.id content type])

/-- Error branches of the `reviewCompletionRequest` controller. -/
inductive ReviewFail where
  | roleForbidden
  | messageNotFound
  | notCompletionRequest
  | alreadyReviewed
  | noProjectAccess
  | internalError
deriving DecidableEq, Repr

/-- The review update applied on success: `reviewedBy`, `reviewedAt` and
`reviewResponse = response || ''` are set, and `type` becomes
completion-approved or completion-rejected. -/
def applyReview (user : AuthUser) (m : Message) (approved : Bool)
    (response : Option String) (nowMs : Nat) : Message :=
  { m with reviewedBy := some user.id
           reviewedAt := some nowMs
           reviewResponse := response.getD ""
           type := if approved then MsgType.completionApproved
                   else MsgType.completionRejected }

/-- The `reviewCompletionRequest` controller of messageController.js: role gate
(admin or project-lead), message must exist, be a completion-request, and be
unreviewed; then the parent project is loaded and `hasProjectAccess` decides
(an admin passes even when the project lookup returns null, since the admin
branch short-circuits; a lead on a null project hits a thrown `getId` and the
generic 500 handler). On approval the parent project's status is set to
completed. Returns the saved message with the updated project. -/
def reviewCompletionRequest (user : AuthUser) (msgFound : Option Message)
    (projFound : Option Project) (approved : Bool) (response : Option String)
    (nowMs : Nat) : Except ReviewFail (Message × Option Project) :=
  if ¬(user.role = Role.admin ∨ user.role = Role.projectLead) then
    Except.error ReviewFail.roleForbidden
  else
    match msgFound with
    | none => Except.error ReviewFail.messageNotFound
    | some m =>
      if m.type ≠ MsgType.completionRequest then
        Except.error ReviewFail.notCompletionRequest
      else if m.reviewedBy.isSome then
        Except.error ReviewFail.alreadyReviewed
      else
        match projFound with
        | none =>
          if user.role = Role.admin then
            Except.ok (applyReview user m approved response nowMs, none)
          else
            Except.error ReviewFail.internalError
        | some p =>
          if hasProjectAccess user p = false then
            Except.error ReviewFail.noProjectAccess
          else
            Except.ok (applyReview user m approved response nowMs,
              some (if approved then { p with status := ProjectStatus.completed } else p))

end PixelForge

namespace PixelForge

/-- A concrete project led by "l1", created by "a1", with developer "d1". -/
def demoProject : Project :=
  { name := "PixelForge"
    status := ProjectStatus.active
    createdBy := some "a1"
    projectLead := some "l1"
    assignedDevelopers := ["d1"] }

/-- A concrete unreviewed completion request on project "p1" from "d1". -/
def demoPending : Message :=
  mkMessage "m1" "p1" "d1" "please review" MsgType.completionRequest

/-- C6: with a pending (unreviewed) completion-request for the project in the
store, a developer's new completion-request fails with the conflict error and
no message is appended; once every completion-request for the project carries
a reviewer, a new request succeeds and appends exactly one message; and a
subject whose role is not developer can never create a completion-request. -/
theorem single_outstanding_completion_request (user : AuthUser) (p : Project)
    (projectId content newId : String) (msgs : List Message)
    (hdev : user.role = Role.developer)
    (hacc : hasProjectAccess user p = true)
    (hcontent : jsTrim content ≠ "") :
    ((∃ m ∈ msgs, m.project = projectId ∧ m.type = MsgType.completionRequest
        ∧ m.reviewedBy = none) →
      sendMessage user (some p) projectId content MsgType.completionRequest msgs newId
        = Except.error SendMessageFail.pendingRequestExists)
    ∧ ((∀ m ∈ msgs, m.project = projectId → m.type = MsgType.completionRequest →
          m.reviewedBy ≠ none) →
      sendMessage user (some p) projectId content MsgType.completionRequest msgs newId
        = Except.ok
            (msgs ++ [mkMessage newId projectId user.id content MsgType.completionRequest]))
    ∧ (∀ u2 : AuthUser, u2.role ≠ Role.developer → ∀ msgs2 : List Message,
        (sendMessage u2 (some p) projectId content MsgType.completionRequest
            msgs2 newId).isOk = false) := by
  refine ⟨?_, ?_, ?_⟩
  · rintro ⟨m, hm, h1, h2, h3⟩
    have hpend : pendingCompletionRequest msgs projectId = true := by
      simp only [pendingCompletionRequest, List.any_eq_true, decide_eq_true_eq]
      exact ⟨m, hm, h1, h2, h3⟩
    simp [sendMessage, hcontent, hacc, hdev, hpend]
  · intro h
    have hpend : pendingCompletionRequest msgs projectId = false := by
      simp only [pendingCompletionRequest, List.any_eq_false, decide_eq_true_eq]
      intro m hm hcon
      exact h m hm hcon.1 hcon.2.1 hcon.2.2
    simp [sendMessage, hcontent, hacc, hdev, hpend]
  · intro u2 hu2 msgs2
    by_cases hca : hasProjectAccess u2 p = false
    · simp [sendMessage, hcontent, hca, Except.isOk, Except.toBool]
    · simp [sendMessage, hcontent, hca, hu2, Except.isOk, Except.toBool]

/-- Witness for `single_outstanding_completion_request`: with the unreviewed
request in the store the second request conflicts; after a lead reviews it,
a new request appends; an admin's completion-request is refused. -/
theorem single_outstanding_completion_request_witness :
    sendMessage ⟨"d1", Role.developer⟩ (some demoProject) "p1" "done" MsgType.completionRequest
        [demoPending] "m2" = Except.error SendMessageFail.pendingRequestExists
    ∧ sendMessage ⟨"d1", Role.developer⟩ (some demoProject) "p1" "done" MsgType.completionRequest
        [applyReview ⟨"l1", Role.projectLead⟩ demoPending false none 99] "m2"
      = Except.ok
          ([applyReview ⟨"l1", Role.projectLead⟩ demoPending false none 99]
            ++ [mkMessage "m2" "p1" "d1" "done" MsgType.completionRequest])
    ∧ (sendMessage ⟨"a1", Role.admin⟩ (some demoProject) "p1" "done" MsgType.completionRequest
        [] "m2").isOk = false := by
  have h1 := single_outstanding_completion_request ⟨"d1", Role.developer⟩ demoProject
    "p1" "done" "m2" [demoPending] rfl (by decide) (by decide)
  have h2 := single_outstanding_completion_request ⟨"d1", Role.developer⟩ demoProject
    "p1" "done" "m2" [applyReview ⟨"l1", Role.projectLead⟩ demoPending false none 99]
    rfl (by decide) (by decide)
  refine ⟨h1.1 ⟨demoPending, by simp, by decide⟩, h2.2.1 ?_, h1.2.2 ⟨"a1", Role.admin⟩ (by decide) []⟩
  intro m hm
  simp at hm
  subst hm
  intro _ _
  decide

/-- C7: a review by an admin, or by a project-lead who leads or created the
parent project, of an unreviewed completion-request succeeds, setting
`reviewedBy` and moving `type` to completion-approved/rejected, and on
approval the parent project's status becomes completed; the reviewed message
can never be reviewed again; and any successful review implies the reviewer
was admin or an owning/leading project-lead and the message was an unreviewed
completion-request. -/
theorem review_completion_request_correct (user : AuthUser) (m : Message) (p : Project)
    (approved : Bool) (response : Option String) (nowMs : Nat)
    (hrole : user.role = Role.admin ∨
      (user.role = Role.projectLead ∧
        (p.projectLead = some user.id ∨ p.createdBy = some user.id)))
    (htype : m.type = MsgType.completionRequest)
    (hrev : m.reviewedBy = none) :
    reviewCompletionRequest user (some m) (some p) approved response nowMs
      = Except.ok (applyReview user m approved response nowMs,
          some (if approved then { p with status := ProjectStatus.completed } else p))
    ∧ (applyReview user m approved response nowMs).reviewedBy = some user.id
    ∧ ((applyReview user m approved response nowMs).type = MsgType.completionApproved
        ∨ (applyReview user m approved response nowMs).type = MsgType.completionRejected)
    ∧ (approved = true →
        (if approved then { p with status := ProjectStatus.completed } else p).status
          = ProjectStatus.completed)
    ∧ (∀ (u2 : AuthUser) (proj2 : Option Project) (approved2 : Bool)
        (response2 : Option String) (now2 : Nat),
        (reviewCompletionRequest u2 (some (applyReview user m approved response nowMs))
            proj2 approved2 response2 now2).isOk = false)
    ∧ (∀ (u2 : AuthUser) (m2 : Message) (p2 : Project) (approved2 : Bool)
        (response2 : Option String) (now2 : Nat) (result : Message × Option Project),
        reviewCompletionRequest u2 (some m2) (some p2) approved2 response2 now2
            = Except.ok result →
        (u2.role = Role.admin ∨ (u2.role = Role.projectLead ∧
            (p2.projectLead = some u2.id ∨ p2.createdBy = some u2.id)))
        ∧ m2.type = MsgType.completionRequest ∧ m2.reviewedBy = none) := by
  have hgate : (user.role = Role.admin ∨ user.role = Role.projectLead) := by
    rcases hrole with h | ⟨h, _⟩
    · exact Or.inl h
    · exact Or.inr h
  have hacc : hasProjectAccess user p = true := by
    rcases hrole with h | ⟨h, hc⟩
    · simp [hasProjectAccess, h]
    · simp [hasProjectAccess, h, hc]
  refine ⟨?_, rfl, ?_, ?_, ?_, ?_⟩
  · simp [reviewCompletionRequest, hgate, htype, hrev, hacc]
  · cases approved <;> simp [applyReview]
  · intro ha
    simp [ha]
  · intro u2 proj2 approved2 response2 now2
    have htype2 : (applyReview user m approved response nowMs).type
        ≠ MsgType.completionRequest := by
      cases approved <;> simp [applyReview]
    by_cases hg2 : (u2.role = Role.admin ∨ u2.role = Role.projectLead)
    · simp [reviewCompletionRequest, hg2, htype2, Except.isOk, Except.toBool]
    · simp [reviewCompletionRequest, hg2, Except.isOk, Except.toBool]
  · intro u2 m2 p2 approved2 response2 now2 result hok
    have hg2 : (u2.role = Role.admin ∨ u2.role = Role.projectLead) := by
      by_contra hc
      simp [reviewCompletionRequest, hc] at hok
    have ht2 : m2.type = MsgType.completionRequest := by
      by_contra hc
      simp [reviewCompletionRequest, hg2, hc] at hok
    have hr2 : m2.reviewedBy = none := by
      cases hrb : m2.reviewedBy with
      | none => rfl
      | some x => simp [reviewCompletionRequest, hg2, ht2, hrb] at hok
    refine ⟨?_, ht2, hr2⟩
    rcases hg2 with h | h
    · exact Or.inl h
    · refine Or.inr ⟨h, ?_⟩
      by_contra hc
      push_neg at hc
      have hacc2 : hasProjectAccess u2 p2 = false := by
        simp [hasProjectAccess, h, hc.1, hc.2]
      simp [reviewCompletionRequest, h, ht2, hr2, hacc2] at hok

/-- Witness for `review_completion_request_correct`: the owning lead approves
the pending request; the message is marked reviewed and the project completed,
and a second review of the result fails. -/
theorem review_completion_request_witness :
    reviewCompletionRequest ⟨"l1", Role.projectLead⟩ (some demoPending) (some demoProject)
        true (some "ok") 99
      = Except.ok (applyReview ⟨"l1", Role.projectLead⟩ demoPending true (some "ok") 99,
          some { demoProject with status := ProjectStatus.completed })
    ∧ (applyReview ⟨"l1", Role.projectLead⟩ demoPending true (some "ok") 99).reviewedBy
        = some "l1"
    ∧ (reviewCompletionRequest ⟨"a1", Role.admin⟩
        (some (applyReview ⟨"l1", Role.projectLead⟩ demoPending true (some "ok") 99))
        (some demoProject) true none 100).isOk = false := by
  have h := review_completion_request_correct ⟨"l1", Role.projectLead⟩ demoPending demoProject
    true (some "ok") 99 (Or.inr ⟨rfl, Or.inl rfl⟩) rfl rfl
  exact ⟨by simpa using h.1, h.2.1, h.2.2.2.2.1 ⟨"a1", Role.admin⟩ (some demoProject) true none 100⟩

end PixelForge

namespace PixelForge

/-- The file data multer attaches at `req.file`. -/
structure UploadFile where
  originalname : String
  size : Nat
  mimetype : String
deriving DecidableEq, Repr

/-- `config.maxFileSize` (default `5242880` bytes = 5 MB). -/
def maxFileSize : Nat := 5242880

/-- `config.allowedFileTypes` (default `'pdf,doc,docx,txt'.split(',')`). -/
def allowedFileTypes : List String := ["pdf", "doc", "docx", "txt"]

/-- The MIME whitelist of `validateUploadFile`. -/
def allowedMimeTypes : List String :=
  [ "application/pdf"
  , "application/msword"
  , "application/vnd.openxmlformats-officedocument.wordprocessingml.document"
  , "text/plain"
  , "application/vnd.ms-excel"
  , "application/vnd.openxmlformats-officedocument.spreadsheetml.sheet"
  , "application/vnd.ms-powerpoint"
  , "application/vnd.openxmlformats-officedocument.presentationml.presentation" ]

/-- Index of the last `'.'` in a name, if any. -/
def lastDotIndex (s : String) : Option Nat :=
  ((List.range s.toList.length).filter (fun i => s.toList.getD i ' ' = '.')).getLast?

/-- `path.extname(name).slice(1)`: the extension after the final dot, empty
when there is no dot or the only dot starts the name. -/
def extAfterDot (s : String) : String :=
  match lastDotIndex s with
  | some i => if i = 0 then "" else String.mk (s.toList.drop (i + 1))
  | none => ""

/-- JS `String.prototype.toLowerCase()` over the character list (Lean's
`String.toLower` does not reduce definitionally). -/
def lowerString (s : String) : String :=
  String.mk (s.toList.map Char.toLower)

/-- `validateUploadFile(file)` from documentController.js: size bound,
lower-cased extension whitelist, MIME whitelist (true instead of the throw /
false dichotomy of the source). -/
def validateUploadFile (file : UploadFile) : Bool :=
  decide (file.size ≤ maxFileSize)
  && allowedFileTypes.contains (lowerString (extAfterDot file.originalname))
  && allowedMimeTypes.contains file.mimetype

/-- The `accessibleBy` list built by `uploadDocument`: the project lead (role
tag `'project-lead'`) when present, then every assigned developer (role tag
`'developer'`). The uploading admin is never pushed onto the list. -/
def buildAccessibleBy (p : Project) : List AccessEntry :=
  (match p.projectLead with
   | some leadId => [{ userId := leadId, role := Role.projectLead }]
   | none => []) ++
  p.assignedDevelopers.map (fun devId => { userId := devId, role := Role.developer })

/-- The classification enum of the Document schema:
`['public', 'internal', 'confidential', 'secret']`. -/
def classificationEnum : List String :=
  ["public", "internal", "confidential", "secret"]

/-- The `allowedClassifications` list hard-coded in the `updateDocument`
controller: `['public', 'internal', 'confidential', 'restricted']`. -/
def allowedClassifications : List String :=
  ["public", "internal", "confidential", "restricted"]

/-- Error branches of the document controllers. -/
inductive DocFail where
  | noFile
  | notFound
  | forbidden
  | invalidFile
  | invalidClassification
  | schemaValidation
deriving DecidableEq, Repr

/-- Mongoose validation run by `document.save()`: the classification enum is
the only schema validator not already enforced upstream (file size, MIME type
and extension are checked by `validateUploadFile`, and the stored name keeps
the original extension). A violation raises a ValidationError that the
controllers surface as a 500. -/
def saveDocument (d : Document) : Except DocFail Document :=
  if classificationEnum.contains d.classification = false then
    Except.error DocFail.schemaValidation
  else
    Except.ok d

/-- The `uploadDocument` controller of documentController.js: file present,
project found, `canUploadToProject` gate, `validateUploadFile`, then the
document record is built with `accessibleBy` from the project team and
`classification: req.body.classification || 'internal'` and saved. The
Cloudinary upload and checksum are external effects, so the sanitized stored
name and the digest enter as parameters. -/
def uploadDocument (user : AuthUser) (projFound : Option Project) (projectId : String)
    (file : Option UploadFile) (classification : Option String)
    (storedName checksum : String) : Except DocFail Document :=
  match file with
  | none => Except.error DocFail.noFile
  | some f =>
    match projFound with
    | none => Except.error DocFail.notFound
    | some p =>
      if canUploadToProject user p = false then
        Except.error DocFail.forbidden
      else if validateUploadFile f = false then
        Except.error DocFail.invalidFile
      else
        saveDocument
          { fileName := storedName
            originalFileName := f.originalname
            fileSize := f.size
            mimeType := f.mimetype
            project := projectId
            uploadedBy := user.id
            accessibleBy := buildAccessibleBy p
            classification :=
              match classification with
              | some c => if c = "" then "internal" else c
              | none => "internal"
            checksum := checksum
            accessLog := [] }

/-- The `accessibleBy` replacement step of `updateDocument`:
applied whenever the body carries an array. -/
def applyAccessibleByUpdate (d : Document) (newList : Option (List AccessEntry)) :
    Document :=
  match newList with
  | some l => { d with accessibleBy := l }
  | none => d

/-- The `updateDocument` controller of documentController.js: document and
parent project must exist, `canUploadToProject` gates the caller; a truthy
`classification` must be in the controller's `allowedClassifications` list
(400 otherwise) and is then written; an `accessibleBy` array replaces the
list; finally `document.save()` re-runs the schema validators. -/
def updateDocument (user : AuthUser) (docFound : Option Document)
    (projFound : Option Project) (classification : Option String)
    (newAccessibleBy : Option (List AccessEntry)) : Except DocFail Document :=
  match docFound with
  | none => Except.error DocFail.notFound
  | some d =>
    match projFound with
    | none => Except.error DocFail.notFound
    | some p =>
      if canUploadToProject user p = false then
        Except.error DocFail.forbidden
      else
        match classification with
        | some c =>
          if c = "" then
            saveDocument (applyAccessibleByUpdate d newAccessibleBy)
          else if allowedClassifications.contains c = false then
            Except.error DocFail.invalidClassification
          else
            saveDocument (applyAccessibleByUpdate { d with classification := c } newAccessibleBy)
        | none => saveDocument (applyAccessibleByUpdate d newAccessibleBy)

end PixelForge

namespace PixelForge

/-- A concrete project with lead "l1" and developers "d1", "d2". -/
def demoTeamProject : Project :=
  { name := "PixelForge 2"
    status := ProjectStatus.active
    createdBy := some "a1"
    projectLead := some "l1"
    assignedDevelopers := ["d1", "d2"] }

/-- A concrete valid upload. -/
def demoFile : UploadFile :=
  { originalname := "spec.pdf", size := 1000, mimetype := "application/pdf" }

/-- The document produced by uploading `demoFile` to `demoTeamProject`. -/
def demoUploadedDoc : Document :=
  { fileName := "spec_1_ab.pdf"
    originalFileName := "spec.pdf"
    fileSize := 1000
    mimeType := "application/pdf"
    project := "p2"
    uploadedBy := "a1"
    accessibleBy := buildAccessibleBy demoTeamProject
    classification := "internal"
    checksum := "cafe"
    accessLog := [] }

/-- C8: a successful upload to a project with lead L stores an `accessibleBy`
list containing L (tagged project-lead) and every assigned developer (tagged
developer), never an admin tag; and any non-admin subject absent from the
list is denied by `canAccessDocument`. -/
theorem document_access_list_complete (user : AuthUser) (p : Project)
    (projectId : String) (file : UploadFile) (classification : Option String)
    (storedName checksum leadId : String) (doc : Document)
    (hup : uploadDocument user (some p) projectId (some file) classification
        storedName checksum = Except.ok doc)
    (hlead : p.projectLead = some leadId) :
    ({ userId := leadId, role := Role.projectLead } : AccessEntry) ∈ doc.accessibleBy
    ∧ (∀ devId ∈ p.assignedDevelopers,
        ({ userId := devId, role := Role.developer } : AccessEntry) ∈ doc.accessibleBy)
    ∧ (∀ e ∈ doc.accessibleBy, e.role ≠ Role.admin)
    ∧ (∀ d3 : AuthUser, d3.role ≠ Role.admin →
        (∀ e ∈ doc.accessibleBy, e.userId ≠ d3.id) →
        canAccessDocument d3 doc = false) := by
  have hacc : doc.accessibleBy = buildAccessibleBy p := by
    simp only [uploadDocument, saveDocument] at hup
    split at hup
    · exact absurd hup (by simp)
    · split at hup
      · exact absurd hup (by simp)
      · split at hup
        · exact absurd hup (by simp)
        · simp only [Except.ok.injEq] at hup
          subst hup
          rfl
  refine ⟨?_, ?_, ?_, ?_⟩
  · rw [hacc]
    simp [buildAccessibleBy, hlead]
  · intro devId hdev
    rw [hacc]
    simp only [buildAccessibleBy, hlead, List.mem_append, List.mem_map]
    exact Or.inr ⟨devId, hdev, rfl⟩
  · intro e he
    rw [hacc] at he
    simp only [buildAccessibleBy, hlead, List.mem_append, List.mem_map,
      List.mem_singleton] at he
    rcases he with he | ⟨d, _, he⟩
    · subst he
      simp
    · rw [← he]
      simp
  · intro d3 hrole hne
    simp only [canAccessDocument, hrole, if_false, List.any_eq_false,
      decide_eq_true_eq]
    intro e he
    exact hne e he
  
/-- Witness for `document_access_list_complete` at the concrete upload. -/
theorem document_access_list_complete_witness :
    ({ userId := "l1", role := Role.projectLead } : AccessEntry)
        ∈ demoUploadedDoc.accessibleBy
    ∧ ({ userId := "d2", role := Role.developer } : AccessEntry)
        ∈ demoUploadedDoc.accessibleBy
    ∧ canAccessDocument ⟨"d3", Role.developer⟩ demoUploadedDoc = false := by
  have h := document_access_list_complete ⟨"a1", Role.admin⟩ demoTeamProject "p2"
    demoFile none "spec_1_ab.pdf" "cafe" "l1" demoUploadedDoc rfl rfl
  exact ⟨h.1, h.2.1 "d2" (by simp [demoTeamProject]),
    h.2.2.2 ⟨"d3", Role.developer⟩ (by decide) (by decide)⟩

/-- C9 (failing input): the Document schema declares `secret` a valid
classification, but `updateDocument`'s hard-coded list replaces it with
`restricted`; so an authorized update to `secret` is rejected with the 400
branch, an update to `restricted` passes the controller and then fails the
schema's enum validation at save, and only the three common values behave as
specified (shown here for `confidential`). -/
theorem classification_enum_mismatch :
    updateDocument ⟨"a1", Role.admin⟩ (some demoUploadedDoc) (some demoTeamProject)
        (some "secret") none = Except.error DocFail.invalidClassification
    ∧ classificationEnum.contains "secret" = true
    ∧ updateDocument ⟨"a1", Role.admin⟩ (some demoUploadedDoc) (some demoTeamProject)
        (some "restricted") none = Except.error DocFail.schemaValidation
    ∧ allowedClassifications.contains "restricted" = true
    ∧ updateDocument ⟨"a1", Role.admin⟩ (some demoUploadedDoc) (some demoTeamProject)
        (some "confidential") none
      = Except.ok { demoUploadedDoc with classification := "confidential" } := by
  exact ⟨rfl, rfl, rfl, rfl, rfl⟩

end PixelForge
